import Mathlib

/-!
Verification development for the NSW parcel planning tool
(`src/map_tool_V1.py`).  The overlay-normalization pipeline is embedded
shallowly: JSON records become association lists of string fields, the
overlay dictionary becomes an association list built by last-write-wins
insertion, each `parse_*` extractor becomes a Lean function mirroring the
Python field accesses, Python truthiness and `str.join`/`sorted`/`set`
semantics are made explicit, and the Streamlit submission handler becomes
a pure state transition on the site table.
-/

namespace ParcelNSW

/-- A JSON overlay record: an association list of string-valued fields,
mirroring the dicts that `layerintersect` returns.  Fields absent from the
list model keys absent from the dict. -/
abbrev Record := List (String × String)

/-- Python `r.get(k)`: the value of the first binding of `k`, if any. -/
def rget (r : Record) (k : String) : Option String :=
  (r.find? (fun p => p.1 == k)).map (fun p => p.2)

/-- Python truthiness of a `str | None` value: `None` and `""` are falsy. -/
def truthy : Option String → Bool
  | none => false
  | some s => !s.isEmpty

/-- Python `a or b` on `str | None` values: `b` whenever `a` is falsy. -/
def pyOr (a b : Option String) : Option String :=
  if truthy a then a else b

/-- Python `sep.join(xs)`. -/
def joinSep (sep : String) : List String → String
  | [] => ""
  | x :: xs => xs.foldl (fun acc s => acc ++ sep ++ s) x

/-- Python `sep.join(p for p in xs if p)`: keep only truthy entries. -/
def joinTruthy (sep : String) (l : List (Option String)) : String :=
  joinSep sep (l.filterMap (fun o =>
    match o with
    | some s => if s.isEmpty then none else some s
    | none => none))

/-- Lexicographic comparison of character lists by code point, the order
Python uses to compare `str` values. -/
def charsLe : List Char → List Char → Bool
  | [], _ => true
  | _ :: _, [] => false
  | a :: as, b :: bs =>
    if a < b then true else if b < a then false else charsLe as bs

/-- Python `a <= b` on strings: code-point lexicographic comparison. -/
def pyLe (a b : String) : Bool := charsLe a.data b.data

/-- Propositional form of `pyLe`, used as the sorting relation. -/
def pyLeP (a b : String) : Prop := pyLe a b = true

instance : DecidableRel pyLeP := fun a b => instDecidableEqBool (pyLe a b) true

/-- Python `sorted(set(xs))` for a list of strings: the distinct elements in
ascending lexicographic order. -/
def pySortedSet (l : List String) : List String :=
  l.dedup.insertionSort pyLeP

/-- Python `s.strip()`: drop leading and trailing whitespace. -/
def pyStrip (s : String) : String :=
  ⟨((s.data.dropWhile Char.isWhitespace).reverse.dropWhile Char.isWhitespace).reverse⟩

/-- The overlay index `{ layerName : results }`, as an association list. -/
abbrev OverlayIdx := List (String × List Record)

/-- Python `overlay_idx.get(k)`. -/
def dget (idx : OverlayIdx) (k : String) : Option (List Record) :=
  (idx.find? (fun p => p.1 == k)).map (fun p => p.2)

/-- One block of the `layerintersect` response; only the two keys the code
reads are modelled, each possibly absent. -/
structure Layer where
  layerName : Option String
  results : Option (List Record)
deriving DecidableEq, Repr

/-- CPython dict assignment `d[k] = v`: replace the binding in place when
the key is present, append it otherwise. -/
def dinsert : OverlayIdx → String → List Record → OverlayIdx
  | [], k, v => [(k, v)]
  | (k₀, v₀) :: rest, k, v =>
    if k₀ == k then (k, v) :: rest else (k₀, v₀) :: dinsert rest k v

/-- Left-to-right evaluation of the dict comprehension in
`index_overlays_by_layer`; `layer["layerName"]` raises `KeyError` when the
key is absent, which aborts the whole comprehension. -/
def indexOverlaysGo (idx : OverlayIdx) : List Layer → Except String OverlayIdx
  | [] => .ok idx
  | layer :: rest =>
    match layer.layerName with
    | none => .error "KeyError: layerName"
    | some name => indexOverlaysGo (dinsert idx name (layer.results.getD [])) rest

/-- Embeds `index_overlays_by_layer(overlays)`:
`{layer["layerName"]: layer.get("results", []) for layer in overlays}`. -/
def index_overlays_by_layer (overlays : List Layer) : Except String OverlayIdx :=
  indexOverlaysGo [] overlays

/-- Python `f"{x}"` on a `str | None` value: `None` renders as `"None"`. -/
def fstr : Option String → String
  | none => "None"
  | some s => s

/-- Embeds `parse_land_zoning`: first record of `"Land Zoning Map"`, rendered with
an f-string (so a missing `Zone` field renders as the string `"None"`). -/
def parse_land_zoning (idx : OverlayIdx) : Option String :=
  match dget idx "Land Zoning Map" with
  | some (z :: _) => some (fstr (rget z "Zone"))
  | _ => none

/-- Embeds `parse_regional_plan`: `rp[0].get("title")` of `"Regional Plan Boundary"`. -/
def parse_regional_plan (idx : OverlayIdx) : Option String :=
  match dget idx "Regional Plan Boundary" with
  | some (r :: _) => rget r "title"
  | _ => none

/-- Embeds `parse_lalc`: `lalc[0].get("Local Council Name")`. -/
def parse_lalc (idx : OverlayIdx) : Option String :=
  match dget idx "Local Aboriginal Land Council" with
  | some (r :: _) => rget r "Local Council Name"
  | _ => none

/-- The label one `"Special Provisions"` record adds to the set:
`if r.get("Type"): labels.add(r["Type"])`. -/
def spLabel (r : Record) : Option String :=
  if truthy (rget r "Type") then some ((rget r "Type").getD "") else none

/-- Body of the `parse_special_provisions` loop once the layer entry proved
truthy: collect truthy `Type` values into a set and join the sorted set with
`" / "` (note: no empty-set check, so a non-empty layer with no labels
yields the empty string, not `None`). -/
def spRows (sp : List Record) : Option String :=
  if sp.isEmpty then none
  else some (joinSep " / " (pySortedSet (sp.filterMap spLabel)))

/-- Embeds `parse_special_provisions`. -/
def parse_special_provisions (idx : OverlayIdx) : Option String :=
  match dget idx "Special Provisions" with
  | none => none
  | some sp => spRows sp

/-- The composite label one `"Height of Buildings Map"` record adds:
primary `Maximum Building Height` (fallback `title`) rendered with the
`Units` default `"m"`, plus a parenthesized clause/EPI metadata suffix. -/
def heightLabel (r : Record) : Option String :=
  let height := pyOr (rget r "Maximum Building Height") (rget r "title")
  let units := (rget r "Units").getD "m"
  let clause := rget r "Legislative Clause"
  let epi := rget r "EPI Name"
  let parts : List String :=
    (if truthy height then [pyStrip ((height.getD "") ++ " " ++ units)] else []) ++
    (let meta := joinTruthy ", " [clause, epi]
     if meta.isEmpty then [] else ["(" ++ meta ++ ")"])
  if parts.isEmpty then none else some (joinSep " " parts)

/-- The composite label one `"Acid Sulfate Soils Map"` record adds. -/
def soilLabel (r : Record) : Option String :=
  let cls := pyOr (rget r "Class") (rget r "title")
  let clause := rget r "Legislative Clause"
  let epi := rget r "EPI Name"
  let parts : List String :=
    (if truthy cls then [cls.getD ""] else []) ++
    (let meta := joinTruthy ", " [clause, epi]
     if meta.isEmpty then [] else ["(" ++ meta ++ ")"])
  if parts.isEmpty then none else some (joinSep " " parts)

/-- The label one `"Bushfire Prone Land (Non-EPI)"` record adds. -/
def bushfireLabel (r : Record) : Option String :=
  let category := pyOr (rget r "Category") (rget r "title")
  let parts : List String := if truthy category then [category.getD ""] else []
  if parts.isEmpty then none else some (joinSep " " parts)

/-- The composite label one groundwater-vulnerability record adds. -/
def gwLabel (r : Record) : Option String :=
  let cls := pyOr (rget r "Class") (rget r "title")
  let epi := rget r "EPI Name"
  let commenced := rget r "Commenced Date"
  let parts : List String :=
    (if truthy cls then [cls.getD ""] else []) ++
    (let meta := joinTruthy ", "
        [epi, if truthy commenced then some ("Commenced " ++ commenced.getD "") else none]
     if meta.isEmpty then [] else ["(" ++ meta ++ ")"])
  if parts.isEmpty then none else some (joinSep " " parts)

/-- The composite label one terrestrial-biodiversity record adds. -/
def bioLabel (r : Record) : Option String :=
  let cls := pyOr (rget r "Class") (rget r "title")
  let epi := rget r "EPI Name"
  let commenced := rget r "Commenced Date"
  let parts : List String :=
    (if truthy cls then [cls.getD ""] else []) ++
    (let meta := joinTruthy ", "
        [epi, if truthy commenced then some ("Commenced " ++ commenced.getD "") else none]
     if meta.isEmpty then [] else ["(" ++ meta ++ ")"])
  if parts.isEmpty then none else some (joinSep " " parts)

/-- Loop body shared by the composite-label extractors, applied to a truthy
layer entry: add each record's label to a set, return `None` when the set
is empty, else the prefixed sorted join. -/
def aggregateRows (pre sep : String) (labelOf : Record → Option String)
    (rows : List Record) : Option String :=
  if rows.isEmpty then none
  else if (rows.filterMap labelOf).isEmpty then none
  else some (pre ++ joinSep sep (pySortedSet (rows.filterMap labelOf)))

/-- Shared shape of the composite-label extractors: short-circuit on a
missing or empty layer entry, then aggregate the records. -/
def aggregate (key pre sep : String) (labelOf : Record → Option String)
    (idx : OverlayIdx) : Option String :=
  match dget idx key with
  | none => none
  | some rows => aggregateRows pre sep labelOf rows

/-- Embeds `parse_height`. -/
def parse_height (idx : OverlayIdx) : Option String :=
  aggregate "Height of Buildings Map" "Height of Buildings: " "; " heightLabel idx

/-- Embeds `parse_acid_sulfate_soil`. -/
def parse_acid_sulfate_soil (idx : OverlayIdx) : Option String :=
  aggregate "Acid Sulfate Soils Map" "Acid Sulfate Soils: " "; " soilLabel idx

/-- Embeds `parse_bushfire_prone_land`. -/
def parse_bushfire_prone_land (idx : OverlayIdx) : Option String :=
  aggregate "Bushfire Prone Land (Non-EPI)" "" "/ " bushfireLabel idx

/-- Embeds `parse_groundwater_vulnerability`. -/
def parse_groundwater_vulnerability (idx : OverlayIdx) : Option String :=
  aggregate "Natural Resource - Groundwater Vulnerability Map"
    "Groundwater Vulnerability: " "; " gwLabel idx

/-- Embeds `parse_terrestrial_biodiversity`. -/
def parse_terrestrial_biodiversity (idx : OverlayIdx) : Option String :=
  aggregate "Terrestrial Biodiversity Map" "Terrestrial Biodiversity: " "; " bioLabel idx

/-- Embeds `parse_heritage_flag`: `"Y"` when the `"Heritage Map"` entry is truthy. -/
def parse_heritage_flag (idx : OverlayIdx) : String :=
  match dget idx "Heritage Map" with
  | some (_ :: _) => "Y"
  | _ => "N"

/-- Embeds `parse_crown_land_flag`: `"Y"` when the `"Crown Land"` entry is truthy. -/
def parse_crown_land_flag (idx : OverlayIdx) : String :=
  match dget idx "Crown Land" with
  | some (_ :: _) => "Y"
  | _ => "N"

/-- Python `filter(None, xs)` on `str | None` values: keep truthy entries. -/
def pyFilterTruthy (l : List (Option String)) : List String :=
  l.filterMap (fun o =>
    match o with
    | some s => if s.isEmpty then none else some s
    | none => none)

/-- The `"Special Provisions"` cell of the assembled row:
`"/ ".join(sorted(filter(None, [sp, height, soils, groundwater, bio])))`. -/
def specialProvisionsField (idx : OverlayIdx) : String :=
  joinSep "/ " (List.insertionSort pyLeP (pyFilterTruthy
    [parse_special_provisions idx,
     parse_height idx,
     parse_acid_sulfate_soil idx,
     parse_groundwater_vulnerability idx,
     parse_terrestrial_biodiversity idx]))

/-- The upstream REST endpoints as an oracle: each call either returns a
parsed JSON payload or fails (transport error, non-2xx, timeout). -/
structure Api where
  lotQuery : String → Except String (List Record)
  propertyQuery : String → Except String String
  boundaryQuery : String → Except String (List Record)
  layerintersectQuery : String → Except String (List Layer)
  addressQuery : String → Except String String
  councilQuery : String → Except String (List String)

/-- Python `xs[0]`: `IndexError` on an empty list. -/
def pyIndex0 {α : Type} : List α → Except String α
  | [] => .error "IndexError"
  | x :: _ => .ok x

/-- Python `r[k]` on a dict: `KeyError` when the key is absent. -/
def pyKey (r : Record) (k : String) : Except String String :=
  match rget r k with
  | some v => .ok v
  | none => .error ("KeyError: " ++ k)

/-- Embeds `get_lot_info(lotid)`: first record of the `lot` endpoint's response. -/
def get_lot_info (api : Api) (lotid : String) : Except String Record := do
  let res ← api.lotQuery lotid
  pyIndex0 res

/-- One assembled row of the site table, with the fixed output columns. -/
structure SiteRow where
  address : String
  siteArea : String
  lotIdentifier : String
  council : String
  regionalPlanBoundary : Option String
  localAboriginalLandCouncil : Option String
  landZoning : Option String
  bpa : Option String
  specialProvisions : String
  crownLand : String
  heritage : String
deriving DecidableEq, Repr

/-- Embeds `build_site_dataframe(lotid)`: the sequential lookup chain
lot → cadId → propId → boundary/overlays/address/council, the overlay
index, and the extractor merge; any raised error aborts the whole row. -/
def build_site_dataframe (api : Api) (lotid : String) : Except String SiteRow := do
  let lot_info ← get_lot_info api lotid
  let cad_id ← pyKey lot_info "cadId"
  let prop_id ← api.propertyQuery cad_id
  let bres ← api.boundaryQuery cad_id
  let b0 ← pyIndex0 bres
  let _boundaries ← pyKey b0 "geometry"
  let overlays ← api.layerintersectQuery cad_id
  let overlay_idx ← index_overlays_by_layer overlays
  let address ← api.addressQuery prop_id
  let council ← api.councilQuery prop_id
  let council0 ← pyIndex0 council
  pure {
    address := address
    siteArea := ""
    lotIdentifier := lotid
    council := council0
    regionalPlanBoundary := parse_regional_plan overlay_idx
    localAboriginalLandCouncil := parse_lalc overlay_idx
    landZoning := parse_land_zoning overlay_idx
    bpa := parse_bushfire_prone_land overlay_idx
    specialProvisions := specialProvisionsField overlay_idx
    crownLand := parse_crown_land_flag overlay_idx
    heritage := parse_heritage_flag overlay_idx }

/-- What the submission handler reports back to the user. -/
inductive SubmitOutcome where
  | emptyInput
  | failed (e : String)
  | duplicate
  | added
deriving DecidableEq, Repr

/-- The submission handler: warn on blank input; build the row, catching
any exception (table untouched on failure); skip the append when the lot
identifier is already in the table; append otherwise. -/
def submit (api : Api) (table : List SiteRow) (lotid : String) :
    List SiteRow × SubmitOutcome :=
  if (pyStrip lotid).isEmpty then (table, .emptyInput)
  else
    match build_site_dataframe api lotid with
    | .error e => (table, .failed e)
    | .ok row =>
      if table.any (fun r => r.lotIdentifier == lotid) then (table, .duplicate)
      else (table ++ [row], .added)

/-- The last layer in the sequence carrying the given name determines the
results the index holds for that name (with the `results`-missing default);
`none` when the name never occurs. -/
def lastResultsFor : List Layer → String → Option (List Record)
  | [], _ => none
  | l :: rest, name =>
    (lastResultsFor rest name).or
      (if l.layerName == some name then some (l.results.getD []) else none)

theorem charsLe_iff_not_lt : ∀ as bs : List Char, charsLe as bs = true ↔ ¬ bs < as := by
  intro as
  induction as with
  | nil =>
    intro bs
    constructor
    · intro _ h
      cases h
    · intro _
      rfl
  | cons a as ih =>
    intro bs
    cases bs with
    | nil =>
      simp only [charsLe]
      exact iff_of_false (by simp) (not_not_intro (List.Lex.nil))
    | cons b bs =>
      simp only [charsLe]
      by_cases hab : a < b
      · rw [if_pos hab]
        refine iff_of_true rfl ?_
        intro h
        cases h with
        | cons h' => exact lt_irrefl _ hab
        | rel h' => exact lt_asymm hab h'
      · by_cases hba : b < a
        · rw [if_neg hab, if_pos hba]
          exact iff_of_false (by simp) (not_not_intro (List.Lex.rel hba))
        · rw [if_neg hab, if_neg hba]
          have heq : a = b := le_antisymm (le_of_not_lt hba) (le_of_not_lt hab)
          subst heq
          rw [ih bs]
          constructor
          · intro h hlt
            cases hlt with
            | cons h' => exact h h'
            | rel h' => exact lt_irrefl _ h'
          · intro h hlt
            exact h (List.Lex.cons hlt)

/-- The executable comparison agrees with the lexicographic order on
strings. -/
theorem pyLe_iff_le (a b : String) : pyLeP a b ↔ a ≤ b := by
  rw [pyLeP, pyLe, charsLe_iff_not_lt, String.le_iff_toList_le]
  exact (not_lt).trans Iff.rfl

instance : IsTotal String pyLeP :=
  ⟨fun a b => by
    rcases le_total a b with h | h
    · exact Or.inl ((pyLe_iff_le a b).mpr h)
    · exact Or.inr ((pyLe_iff_le b a).mpr h)⟩

instance : IsTrans String pyLeP :=
  ⟨fun a b c h1 h2 =>
    (pyLe_iff_le a c).mpr (le_trans ((pyLe_iff_le a b).mp h1) ((pyLe_iff_le b c).mp h2))⟩

instance : IsAntisymm String pyLeP :=
  ⟨fun a b h1 h2 => le_antisymm ((pyLe_iff_le a b).mp h1) ((pyLe_iff_le b a).mp h2)⟩

theorem pySortedSet_sorted (l : List String) :
    (pySortedSet l).Sorted (fun a b => a ≤ b) :=
  List.Pairwise.imp (fun hab => (pyLe_iff_le _ _).mp hab)
    (List.sorted_insertionSort pyLeP l.dedup)

theorem pySortedSet_perm_dedup (l : List String) : (pySortedSet l).Perm l.dedup :=
  List.perm_insertionSort pyLeP l.dedup

theorem pySortedSet_nodup (l : List String) : (pySortedSet l).Nodup :=
  ((pySortedSet_perm_dedup l).nodup_iff).mpr (List.nodup_dedup l)

theorem mem_pySortedSet {s : String} {l : List String} :
    s ∈ pySortedSet l ↔ s ∈ l :=
  ((pySortedSet_perm_dedup l).mem_iff).trans (List.mem_dedup)

theorem pySortedSet_perm_eq {l l' : List String} (h : l.Perm l') :
    pySortedSet l = pySortedSet l' :=
  List.eq_of_perm_of_sorted
    (((pySortedSet_perm_dedup l).trans h.dedup).trans (pySortedSet_perm_dedup l').symm)
    (List.sorted_insertionSort pyLeP l.dedup)
    (List.sorted_insertionSort pyLeP l'.dedup)

theorem pySortedSet_eq_nil_iff {l : List String} : pySortedSet l = [] ↔ l = [] := by
  constructor
  · intro h
    have hp := (pySortedSet_perm_dedup l).symm
    rw [h] at hp
    exact (List.dedup_eq_nil l).mp hp.eq_nil
  · intro h
    subst h
    rfl

theorem pySortedSet_append_mem {l : List String} {a : String} (h : a ∈ l) :
    pySortedSet (l ++ [a]) = pySortedSet l := by
  have h1 : pySortedSet (l ++ [a]) = pySortedSet (a :: l) :=
    pySortedSet_perm_eq (List.perm_append_singleton a l)
  rw [h1, pySortedSet, List.dedup_cons_of_mem h, pySortedSet]

theorem perm_isEmpty_eq {α : Type} {l l' : List α} (hp : l.Perm l') :
    l.isEmpty = l'.isEmpty := by
  cases l with
  | nil =>
    rw [hp.symm.eq_nil]
  | cons a m =>
    cases l' with
    | nil => exact absurd hp.eq_nil (List.cons_ne_nil a m)
    | cons b m' => rfl

theorem aggregate_dget_some {key pre sep : String} {labelOf : Record → Option String}
    {idx : OverlayIdx} {rows : List Record} (h : dget idx key = some rows) :
    aggregate key pre sep labelOf idx = aggregateRows pre sep labelOf rows := by
  unfold aggregate
  rw [h]

theorem aggregate_spec {key pre sep : String} {labelOf : Record → Option String}
    {idx : OverlayIdx} {rows : List Record}
    (h : dget idx key = some rows) (hne : rows ≠ []) :
    ∃ L : List String,
      L.Sorted (fun a b => a ≤ b) ∧ L.Nodup ∧
      (∀ s, s ∈ L ↔ ∃ r ∈ rows, labelOf r = some s) ∧
      aggregate key pre sep labelOf idx =
        (if L.isEmpty then none else some (pre ++ joinSep sep L)) := by
  refine ⟨pySortedSet (rows.filterMap labelOf), pySortedSet_sorted _,
    pySortedSet_nodup _, ?_, ?_⟩
  · intro s
    rw [mem_pySortedSet, List.mem_filterMap]
  · rw [aggregate_dget_some h]
    unfold aggregateRows
    have hre : rows.isEmpty = false := by
      cases rows with
      | nil => exact absurd rfl hne
      | cons a l => rfl
    rw [hre]
    by_cases he : rows.filterMap labelOf = []
    · rw [he]
      simp [pySortedSet]
    · have h1 : (rows.filterMap labelOf).isEmpty = false := by
        cases hc : rows.filterMap labelOf with
        | nil => exact absurd hc he
        | cons a l => rfl
      have h2 : (pySortedSet (rows.filterMap labelOf)).isEmpty = false := by
        cases hc : pySortedSet (rows.filterMap labelOf) with
        | nil => exact absurd (pySortedSet_eq_nil_iff.mp hc) he
        | cons a l => rfl
      rw [h1, h2]
      simp

theorem aggregateRows_perm {pre sep : String} {labelOf : Record → Option String}
    {rows rows' : List Record} (hp : rows.Perm rows') :
    aggregateRows pre sep labelOf rows = aggregateRows pre sep labelOf rows' := by
  unfold aggregateRows
  rw [perm_isEmpty_eq hp, perm_isEmpty_eq (hp.filterMap labelOf),
    pySortedSet_perm_eq (hp.filterMap labelOf)]

theorem aggregate_perm {key pre sep : String} {labelOf : Record → Option String}
    {idx idx' : OverlayIdx} {rows rows' : List Record}
    (h : dget idx key = some rows) (h' : dget idx' key = some rows')
    (hp : rows.Perm rows') :
    aggregate key pre sep labelOf idx = aggregate key pre sep labelOf idx' := by
  rw [aggregate_dget_some h, aggregate_dget_some h']
  exact aggregateRows_perm hp

theorem aggregate_append_mem {key pre sep : String} {labelOf : Record → Option String}
    {idx idx' : OverlayIdx} {rows : List Record} {r : Record}
    (h : dget idx key = some rows) (h' : dget idx' key = some (rows ++ [r]))
    (hr : r ∈ rows) :
    aggregate key pre sep labelOf idx' = aggregate key pre sep labelOf idx := by
  rw [aggregate_dget_some h, aggregate_dget_some h']
  unfold aggregateRows
  have hne : rows ≠ [] := fun e => by
    subst e
    exact absurd hr (List.not_mem_nil r)
  have h1 : rows.isEmpty = false := by
    cases rows with
    | nil => exact absurd rfl hne
    | cons a l => rfl
  have h2 : (rows ++ [r]).isEmpty = false := by
    cases rows with
    | nil => rfl
    | cons a l => rfl
  rw [h1, h2, List.filterMap_append]
  cases hl : labelOf r with
  | none =>
    have hfr : List.filterMap labelOf [r] = [] := by simp [hl]
    rw [hfr, List.append_nil]
  | some lab =>
    have hfr : List.filterMap labelOf [r] = [lab] := by simp [hl]
    rw [hfr]
    have hlab : lab ∈ rows.filterMap labelOf := List.mem_filterMap.mpr ⟨r, hr, hl⟩
    have hene : rows.filterMap labelOf ≠ [] := fun e => by
      rw [e] at hlab
      exact absurd hlab (List.not_mem_nil lab)
    have h3 : (rows.filterMap labelOf).isEmpty = false := by
      cases hc : rows.filterMap labelOf with
      | nil => exact absurd hc hene
      | cons a l => rfl
    have h4 : (rows.filterMap labelOf ++ [lab]).isEmpty = false := by
      cases hc : rows.filterMap labelOf with
      | nil => rfl
      | cons a l => rfl
    rw [h3, h4, pySortedSet_append_mem hlab]

theorem aggregate_append_none {key pre sep : String} {labelOf : Record → Option String}
    {idx idx' : OverlayIdx} {rows : List Record} {r : Record}
    (h : dget idx key = some rows) (h' : dget idx' key = some (rows ++ [r]))
    (hl : labelOf r = none) :
    aggregate key pre sep labelOf idx' = aggregate key pre sep labelOf idx := by
  rw [aggregate_dget_some h, aggregate_dget_some h']
  unfold aggregateRows
  rw [List.filterMap_append]
  have hfr : List.filterMap labelOf [r] = [] := by simp [hl]
  rw [hfr, List.append_nil]
  cases rows with
  | nil => simp
  | cons a l => rfl

theorem sp_dget_some {idx : OverlayIdx} {sp : List Record}
    (h : dget idx "Special Provisions" = some sp) :
    parse_special_provisions idx = spRows sp := by
  unfold parse_special_provisions
  rw [h]

theorem spRows_spec {sp : List Record} (hne : sp ≠ []) :
    ∃ L : List String,
      L.Sorted (fun a b => a ≤ b) ∧ L.Nodup ∧
      (∀ s, s ∈ L ↔ ∃ r ∈ sp, spLabel r = some s) ∧
      spRows sp = some (joinSep " / " L) := by
  refine ⟨pySortedSet (sp.filterMap spLabel), pySortedSet_sorted _,
    pySortedSet_nodup _, ?_, ?_⟩
  · intro s
    rw [mem_pySortedSet, List.mem_filterMap]
  · unfold spRows
    have hre : sp.isEmpty = false := by
      cases sp with
      | nil => exact absurd rfl hne
      | cons a l => rfl
    rw [hre]
    simp

theorem spRows_perm {sp sp' : List Record} (hp : sp.Perm sp') :
    spRows sp = spRows sp' := by
  unfold spRows
  rw [perm_isEmpty_eq hp, pySortedSet_perm_eq (hp.filterMap spLabel)]

theorem spRows_append_mem {sp : List Record} {r : Record} (hr : r ∈ sp) :
    spRows (sp ++ [r]) = spRows sp := by
  unfold spRows
  have hne : sp ≠ [] := fun e => by
    subst e
    exact absurd hr (List.not_mem_nil r)
  have h1 : sp.isEmpty = false := by
    cases sp with
    | nil => exact absurd rfl hne
    | cons a l => rfl
  have h2 : (sp ++ [r]).isEmpty = false := by
    cases sp with
    | nil => rfl
    | cons a l => rfl
  rw [h1, h2, List.filterMap_append]
  cases hl : spLabel r with
  | none =>
    have hfr : List.filterMap spLabel [r] = [] := by simp [hl]
    rw [hfr, List.append_nil]
  | some lab =>
    have hfr : List.filterMap spLabel [r] = [lab] := by simp [hl]
    rw [hfr]
    have hlab : lab ∈ sp.filterMap spLabel := List.mem_filterMap.mpr ⟨r, hr, hl⟩
    rw [pySortedSet_append_mem hlab]

theorem dget_cons (k₀ : String) (v₀ : List Record) (rest : OverlayIdx) (k' : String) :
    dget ((k₀, v₀) :: rest) k' = if k' = k₀ then some v₀ else dget rest k' := by
  unfold dget
  by_cases h : k' = k₀
  · subst h
    simp [List.find?]
  · have hb : (k₀ == k') = false := beq_eq_false_iff_ne.mpr (Ne.symm h)
    simp [List.find?, hb, h]

theorem dget_dinsert (idx : OverlayIdx) (k k' : String) (v : List Record) :
    dget (dinsert idx k v) k' = if k' = k then some v else dget idx k' := by
  induction idx with
  | nil =>
    show dget [(k, v)] k' = _
    rw [dget_cons]
  | cons p rest ih =>
    obtain ⟨k₀, v₀⟩ := p
    unfold dinsert
    by_cases h0 : k₀ = k
    · rw [if_pos (by exact beq_iff_eq.mpr h0)]
      subst h0
      rw [dget_cons, dget_cons]
      by_cases h : k' = k₀ <;> simp [h]
    · rw [if_neg (by simp [h0])]
      rw [dget_cons, dget_cons, ih]
      by_cases h : k' = k₀
      · subst h
        rw [if_pos rfl, if_pos rfl, if_neg h0]
      · rw [if_neg h, if_neg h]

/-- The key list of an overlay index. -/
def keysOf (idx : OverlayIdx) : List String := idx.map Prod.fst

theorem mem_keysOf_dinsert (idx : OverlayIdx) (k : String) (v : List Record) :
    ∀ a, a ∈ keysOf (dinsert idx k v) ↔ a ∈ keysOf idx ∨ a = k := by
  induction idx with
  | nil =>
    intro a
    simp [keysOf, dinsert]
  | cons p rest ih =>
    obtain ⟨k₀, v₀⟩ := p
    intro a
    unfold dinsert
    by_cases h0 : k₀ = k
    · rw [if_pos (by exact beq_iff_eq.mpr h0)]
      subst h0
      simp only [keysOf, List.map_cons, List.mem_cons]
      tauto
    · rw [if_neg (by simp [h0])]
      simp only [keysOf, List.map_cons, List.mem_cons]
      rw [show (List.map Prod.fst (dinsert rest k v)) = keysOf (dinsert rest k v) from rfl]
      rw [ih a]
      simp only [keysOf]
      tauto

theorem nodup_keysOf_dinsert (idx : OverlayIdx) (k : String) (v : List Record)
    (h : (keysOf idx).Nodup) : (keysOf (dinsert idx k v)).Nodup := by
  induction idx with
  | nil => simp [keysOf, dinsert]
  | cons p rest ih =>
    obtain ⟨k₀, v₀⟩ := p
    simp only [keysOf, List.map_cons, List.nodup_cons] at h
    unfold dinsert
    by_cases h0 : k₀ = k
    · rw [if_pos (by exact beq_iff_eq.mpr h0)]
      subst h0
      simp only [keysOf, List.map_cons, List.nodup_cons]
      exact h
    · rw [if_neg (by simp [h0])]
      simp only [keysOf, List.map_cons, List.nodup_cons]
      constructor
      · intro hmem
        rcases (mem_keysOf_dinsert rest k v k₀).mp hmem with hin | heq
        · exact h.1 hin
        · exact h0 heq
      · exact ih h.2

theorem indexOverlaysGo_error_iff : ∀ (ls : List Layer) (idx : OverlayIdx),
    (∃ e, indexOverlaysGo idx ls = .error e) ↔ ∃ l ∈ ls, l.layerName = none := by
  intro ls
  induction ls with
  | nil =>
    intro idx
    constructor
    · rintro ⟨e, he⟩
      exact Except.noConfusion he
    · rintro ⟨l, hm, _⟩
      exact absurd hm (List.not_mem_nil l)
  | cons l rest ih =>
    intro idx
    obtain ⟨ln, lr⟩ := l
    cases ln with
    | none =>
      constructor
      · intro _
        exact ⟨⟨none, lr⟩, List.mem_cons_self _ _, rfl⟩
      · intro _
        exact ⟨"KeyError: layerName", rfl⟩
    | some n =>
      rw [show indexOverlaysGo idx (⟨some n, lr⟩ :: rest) =
            indexOverlaysGo (dinsert idx n (lr.getD [])) rest from rfl]
      rw [ih]
      constructor
      · rintro ⟨l', hm, he⟩
        exact ⟨l', List.mem_cons_of_mem _ hm, he⟩
      · rintro ⟨l', hm, he⟩
        rcases List.mem_cons.mp hm with heq | hm'
        · subst heq
          exact Option.noConfusion he
        · exact ⟨l', hm', he⟩

theorem indexOverlaysGo_ok_dget : ∀ (ls : List Layer) (idx idx' : OverlayIdx),
    indexOverlaysGo idx ls = .ok idx' →
    ∀ name, dget idx' name = (lastResultsFor ls name).or (dget idx name) := by
  intro ls
  induction ls with
  | nil =>
    intro idx idx' h name
    injection h with h'
    subst h'
    rfl
  | cons l rest ih =>
    intro idx idx' h name
    obtain ⟨ln, lr⟩ := l
    cases ln with
    | none => exact Except.noConfusion h
    | some n =>
      have h' : indexOverlaysGo (dinsert idx n (lr.getD [])) rest = .ok idx' := h
      rw [ih _ _ h' name, dget_dinsert]
      rw [show lastResultsFor (⟨some n, lr⟩ :: rest) name =
            (lastResultsFor rest name).or
              (if ((some n : Option String) == some name) = true
               then some (lr.getD []) else none) from rfl]
      cases hrest : lastResultsFor rest name with
      | some v => rfl
      | none =>
        rw [Option.none_or, Option.none_or]
        by_cases hnm : name = n
        · subst hnm
          rw [if_pos rfl, if_pos (by simp)]
          rfl
        · rw [if_neg hnm, if_neg (by simp [Ne.symm hnm])]
          rw [Option.none_or]

theorem indexOverlaysGo_ok_keys : ∀ (ls : List Layer) (idx idx' : OverlayIdx),
    indexOverlaysGo idx ls = .ok idx' →
    ((keysOf idx).Nodup → (keysOf idx').Nodup) ∧
    (∀ a, a ∈ keysOf idx' ↔ a ∈ keysOf idx ∨ a ∈ ls.filterMap Layer.layerName) := by
  intro ls
  induction ls with
  | nil =>
    intro idx idx' h
    injection h with h'
    subst h'
    exact ⟨id, fun a => by simp⟩
  | cons l rest ih =>
    intro idx idx' h
    obtain ⟨ln, lr⟩ := l
    cases ln with
    | none => exact Except.noConfusion h
    | some n =>
      have h' : indexOverlaysGo (dinsert idx n (lr.getD [])) rest = .ok idx' := h
      have hfc : (List.filterMap Layer.layerName (⟨some n, lr⟩ :: rest)) =
          n :: rest.filterMap Layer.layerName := by
        rw [List.filterMap_cons]
      constructor
      · intro hnd
        exact (ih _ _ h').1 (nodup_keysOf_dinsert idx n (lr.getD []) hnd)
      · intro a
        rw [(ih _ _ h').2 a, mem_keysOf_dinsert, hfc, List.mem_cons]
        tauto

/-- Claim C10: when the Land Zoning Map entry is a non-empty sequence whose
first record lacks the Zone field, the zoning extractor returns the literal
four-character string "None" rather than null. -/
theorem claim_C10 (idx : OverlayIdx) (z : Record) (rest : List Record)
    (h : dget idx "Land Zoning Map" = some (z :: rest))
    (hz : rget z "Zone" = none) :
    parse_land_zoning idx = some "None" ∧ ("None" : String).length = 4 := by
  constructor
  · simp only [parse_land_zoning, h]
    rw [hz]
    rfl
  · rfl

/-- Witness for claim C10 at a concrete zoning record without a Zone field. -/
theorem claim_C10_witness :
    parse_land_zoning [("Land Zoning Map", [[("Land Use", "Residential")]])] =
      some "None" ∧ ("None" : String).length = 4 :=
  claim_C10 [("Land Zoning Map", [[("Land Use", "Residential")]])]
    [("Land Use", "Residential")] [] rfl rfl

/-- Claim C5: for every extractor, a target-layer entry holding the empty
sequence produces exactly the same output as a missing key: None for value
extractors and "N" for flag extractors. -/
theorem claim_C5 :
    (∀ idx, (dget idx "Land Zoning Map" = some [] ∨
        dget idx "Land Zoning Map" = none) → parse_land_zoning idx = none) ∧
    (∀ idx, (dget idx "Regional Plan Boundary" = some [] ∨
        dget idx "Regional Plan Boundary" = none) → parse_regional_plan idx = none) ∧
    (∀ idx, (dget idx "Local Aboriginal Land Council" = some [] ∨
        dget idx "Local Aboriginal Land Council" = none) → parse_lalc idx = none) ∧
    (∀ idx, (dget idx "Special Provisions" = some [] ∨
        dget idx "Special Provisions" = none) → parse_special_provisions idx = none) ∧
    (∀ idx, (dget idx "Height of Buildings Map" = some [] ∨
        dget idx "Height of Buildings Map" = none) → parse_height idx = none) ∧
    (∀ idx, (dget idx "Acid Sulfate Soils Map" = some [] ∨
        dget idx "Acid Sulfate Soils Map" = none) → parse_acid_sulfate_soil idx = none) ∧
    (∀ idx, (dget idx "Bushfire Prone Land (Non-EPI)" = some [] ∨
        dget idx "Bushfire Prone Land (Non-EPI)" = none) →
        parse_bushfire_prone_land idx = none) ∧
    (∀ idx, (dget idx "Natural Resource - Groundwater Vulnerability Map" = some [] ∨
        dget idx "Natural Resource - Groundwater Vulnerability Map" = none) →
        parse_groundwater_vulnerability idx = none) ∧
    (∀ idx, (dget idx "Terrestrial Biodiversity Map" = some [] ∨
        dget idx "Terrestrial Biodiversity Map" = none) →
        parse_terrestrial_biodiversity idx = none) ∧
    (∀ idx, (dget idx "Heritage Map" = some [] ∨
        dget idx "Heritage Map" = none) → parse_heritage_flag idx = "N") ∧
    (∀ idx, (dget idx "Crown Land" = some [] ∨
        dget idx "Crown Land" = none) → parse_crown_land_flag idx = "N") := by
  refine ⟨?_, ?_, ?_, ?_, ?_, ?_, ?_, ?_, ?_, ?_, ?_⟩ <;>
    (intro idx h
     rcases h with h | h <;>
       simp [parse_land_zoning, parse_regional_plan, parse_lalc,
         parse_special_provisions, spRows, parse_height, parse_acid_sulfate_soil,
         parse_bushfire_prone_land, parse_groundwater_vulnerability,
         parse_terrestrial_biodiversity, parse_heritage_flag,
         parse_crown_land_flag, aggregate, aggregateRows, h])

/-- Witness for claim C5: the empty-entry and missing-key indexes agree at
concrete inputs. -/
theorem claim_C5_witness :
    parse_land_zoning [("Land Zoning Map", [])] = none ∧
    parse_heritage_flag [] = "N" :=
  ⟨claim_C5.1 [("Land Zoning Map", [])] (Or.inl rfl),
   claim_C5.2.2.2.2.2.2.2.2.2.1 [] (Or.inr rfl)⟩

/-- Claim C7: the overlay indexer fails exactly when some layer block lacks
the layerName key; a block with a name but no results key does not fail and
is indexed with the empty results sequence. -/
theorem claim_C7 :
    (∀ overlays : List Layer,
      (∃ e, index_overlays_by_layer overlays = .error e) ↔
        ∃ l ∈ overlays, l.layerName = none) ∧
    index_overlays_by_layer [⟨some "Heritage Map", none⟩] =
      .ok [("Heritage Map", [])] := by
  constructor
  · intro overlays
    exact indexOverlaysGo_error_iff overlays []
  · rfl

/-- Claim C6: the built overlay index has duplicate-free keys, the number of
distinct keys equals the number of distinct layerName values, and every
name maps to the results of its last occurrence (last-write-wins). -/
theorem claim_C6 (overlays : List Layer) (idx : OverlayIdx)
    (h : index_overlays_by_layer overlays = .ok idx) :
    (keysOf idx).Nodup ∧
    (keysOf idx).toFinset.card =
      (overlays.filterMap Layer.layerName).toFinset.card ∧
    (∀ name, dget idx name = lastResultsFor overlays name) := by
  have hk := indexOverlaysGo_ok_keys overlays [] idx h
  have hd := indexOverlaysGo_ok_dget overlays [] idx h
  refine ⟨hk.1 List.nodup_nil, ?_, ?_⟩
  · have hset : (keysOf idx).toFinset =
        (overlays.filterMap Layer.layerName).toFinset := by
      apply Finset.ext
      intro a
      rw [List.mem_toFinset, List.mem_toFinset, hk.2 a]
      simp [keysOf]
    rw [hset]
  · intro name
    rw [hd name]
    cases lastResultsFor overlays name <;> rfl

/-- Witness for claim C6 on a sequence with a duplicated layer name. -/
theorem claim_C6_witness :
    (keysOf [("A", [[("x", "2")]]), ("B", [])]).Nodup ∧
    dget [("A", [[("x", "2")]]), ("B", [])] "A" =
      lastResultsFor
        [⟨some "A", some [[("x", "1")]]⟩, ⟨some "B", none⟩,
         ⟨some "A", some [[("x", "2")]]⟩] "A" :=
  ⟨(claim_C6
      [⟨some "A", some [[("x", "1")]]⟩, ⟨some "B", none⟩,
       ⟨some "A", some [[("x", "2")]]⟩]
      [("A", [[("x", "2")]]), ("B", [])] rfl).1,
   (claim_C6
      [⟨some "A", some [[("x", "1")]]⟩, ⟨some "B", none⟩,
       ⟨some "A", some [[("x", "2")]]⟩]
      [("A", [[("x", "2")]]), ("B", [])] rfl).2.2 "A"⟩

/-- Claim C1: every aggregation extractor applied to a non-empty entry for
its target layer consumes every record, builds a composite label per
record, collapses duplicate labels, and joins the remaining labels in
ascending lexicographic order of the full rendered label with its fixed
delimiter; in particular the two-record height scenario lists "12 m" before
"9 m" in either insertion order. -/
theorem claim_C1 :
    (∀ (idx : OverlayIdx) (rows : List Record),
      dget idx "Height of Buildings Map" = some rows → rows ≠ [] →
      ∃ L : List String, L.Sorted (fun a b => a ≤ b) ∧ L.Nodup ∧
        (∀ s, s ∈ L ↔ ∃ r ∈ rows, heightLabel r = some s) ∧
        parse_height idx =
          (if L.isEmpty then none
           else some ("Height of Buildings: " ++ joinSep "; " L))) ∧
    (∀ (idx : OverlayIdx) (rows : List Record),
      dget idx "Acid Sulfate Soils Map" = some rows → rows ≠ [] →
      ∃ L : List String, L.Sorted (fun a b => a ≤ b) ∧ L.Nodup ∧
        (∀ s, s ∈ L ↔ ∃ r ∈ rows, soilLabel r = some s) ∧
        parse_acid_sulfate_soil idx =
          (if L.isEmpty then none
           else some ("Acid Sulfate Soils: " ++ joinSep "; " L))) ∧
    (∀ (idx : OverlayIdx) (rows : List Record),
      dget idx "Natural Resource - Groundwater Vulnerability Map" = some rows →
      rows ≠ [] →
      ∃ L : List String, L.Sorted (fun a b => a ≤ b) ∧ L.Nodup ∧
        (∀ s, s ∈ L ↔ ∃ r ∈ rows, gwLabel r = some s) ∧
        parse_groundwater_vulnerability idx =
          (if L.isEmpty then none
           else some ("Groundwater Vulnerability: " ++ joinSep "; " L))) ∧
    (∀ (idx : OverlayIdx) (rows : List Record),
      dget idx "Terrestrial Biodiversity Map" = some rows → rows ≠ [] →
      ∃ L : List String, L.Sorted (fun a b => a ≤ b) ∧ L.Nodup ∧
        (∀ s, s ∈ L ↔ ∃ r ∈ rows, bioLabel r = some s) ∧
        parse_terrestrial_biodiversity idx =
          (if L.isEmpty then none
           else some ("Terrestrial Biodiversity: " ++ joinSep "; " L))) ∧
    (∀ (idx : OverlayIdx) (sp : List Record),
      dget idx "Special Provisions" = some sp → sp ≠ [] →
      ∃ L : List String, L.Sorted (fun a b => a ≤ b) ∧ L.Nodup ∧
        (∀ s, s ∈ L ↔ ∃ r ∈ sp, spLabel r = some s) ∧
        parse_special_provisions idx = some (joinSep " / " L)) ∧
    (parse_height [("Height of Buildings Map",
        [[("title", "12"), ("Units", "m")], [("title", "9"), ("Units", "m")]])] =
      some "Height of Buildings: 12 m; 9 m") ∧
    (parse_height [("Height of Buildings Map",
        [[("title", "9"), ("Units", "m")], [("title", "12"), ("Units", "m")]])] =
      some "Height of Buildings: 12 m; 9 m") := by
  refine ⟨?_, ?_, ?_, ?_, ?_, ?_, ?_⟩
  · intro idx rows h hne
    exact aggregate_spec h hne
  · intro idx rows h hne
    exact aggregate_spec h hne
  · intro idx rows h hne
    exact aggregate_spec h hne
  · intro idx rows h hne
    exact aggregate_spec h hne
  · intro idx sp h hne
    obtain ⟨L, hs, hn, hm, hout⟩ := spRows_spec hne
    refine ⟨L, hs, hn, hm, ?_⟩
    rw [sp_dget_some h]
    exact hout
  · decide
  · decide

/-- Witness for claim C1 at a concrete single-record height layer. -/
theorem claim_C1_witness :
    ∃ L : List String, L.Sorted (fun a b => a ≤ b) ∧ L.Nodup ∧
      (∀ s, s ∈ L ↔ ∃ r ∈ [[("title", "9"), ("Units", "m")]], heightLabel r = some s) ∧
      parse_height [("Height of Buildings Map", [[("title", "9"), ("Units", "m")]])] =
        (if L.isEmpty then none
         else some ("Height of Buildings: " ++ joinSep "; " L)) :=
  claim_C1.1 [("Height of Buildings Map", [[("title", "9"), ("Units", "m")]])]
    [[("title", "9"), ("Units", "m")]] rfl (by decide)

/-- Claim C4: every aggregation extractor's output string is unchanged
under any permutation of the target layer's records and unchanged when an
exact duplicate of a record already present is appended. -/
theorem claim_C4 :
    (∀ (idx idx' : OverlayIdx) (rows rows' : List Record),
      dget idx "Height of Buildings Map" = some rows →
      dget idx' "Height of Buildings Map" = some rows' →
      rows.Perm rows' → parse_height idx = parse_height idx') ∧
    (∀ (idx idx' : OverlayIdx) (rows : List Record) (r : Record),
      dget idx "Height of Buildings Map" = some rows →
      dget idx' "Height of Buildings Map" = some (rows ++ [r]) →
      r ∈ rows → parse_height idx' = parse_height idx) ∧
    (∀ (idx idx' : OverlayIdx) (rows rows' : List Record),
      dget idx "Acid Sulfate Soils Map" = some rows →
      dget idx' "Acid Sulfate Soils Map" = some rows' →
      rows.Perm rows' → parse_acid_sulfate_soil idx = parse_acid_sulfate_soil idx') ∧
    (∀ (idx idx' : OverlayIdx) (rows : List Record) (r : Record),
      dget idx "Acid Sulfate Soils Map" = some rows →
      dget idx' "Acid Sulfate Soils Map" = some (rows ++ [r]) →
      r ∈ rows → parse_acid_sulfate_soil idx' = parse_acid_sulfate_soil idx) ∧
    (∀ (idx idx' : OverlayIdx) (rows rows' : List Record),
      dget idx "Natural Resource - Groundwater Vulnerability Map" = some rows →
      dget idx' "Natural Resource - Groundwater Vulnerability Map" = some rows' →
      rows.Perm rows' →
      parse_groundwater_vulnerability idx = parse_groundwater_vulnerability idx') ∧
    (∀ (idx idx' : OverlayIdx) (rows : List Record) (r : Record),
      dget idx "Natural Resource - Groundwater Vulnerability Map" = some rows →
      dget idx' "Natural Resource - Groundwater Vulnerability Map" = some (rows ++ [r]) →
      r ∈ rows →
      parse_groundwater_vulnerability idx' = parse_groundwater_vulnerability idx) ∧
    (∀ (idx idx' : OverlayIdx) (rows rows' : List Record),
      dget idx "Terrestrial Biodiversity Map" = some rows →
      dget idx' "Terrestrial Biodiversity Map" = some rows' →
      rows.Perm rows' →
      parse_terrestrial_biodiversity idx = parse_terrestrial_biodiversity idx') ∧
    (∀ (idx idx' : OverlayIdx) (rows : List Record) (r : Record),
      dget idx "Terrestrial Biodiversity Map" = some rows →
      dget idx' "Terrestrial Biodiversity Map" = some (rows ++ [r]) →
      r ∈ rows →
      parse_terrestrial_biodiversity idx' = parse_terrestrial_biodiversity idx) ∧
    (∀ (idx idx' : OverlayIdx) (rows rows' : List Record),
      dget idx "Special Provisions" = some rows →
      dget idx' "Special Provisions" = some rows' →
      rows.Perm rows' →
      parse_special_provisions idx = parse_special_provisions idx') ∧
    (∀ (idx idx' : OverlayIdx) (rows : List Record) (r : Record),
      dget idx "Special Provisions" = some rows →
      dget idx' "Special Provisions" = some (rows ++ [r]) →
      r ∈ rows →
      parse_special_provisions idx' = parse_special_provisions idx) := by
  refine ⟨?_, ?_, ?_, ?_, ?_, ?_, ?_, ?_, ?_, ?_⟩
  · intro idx idx' rows rows' h h' hp
    exact aggregate_perm h h' hp
  · intro idx idx' rows r h h' hr
    exact aggregate_append_mem h h' hr
  · intro idx idx' rows rows' h h' hp
    exact aggregate_perm h h' hp
  · intro idx idx' rows r h h' hr
    exact aggregate_append_mem h h' hr
  · intro idx idx' rows rows' h h' hp
    exact aggregate_perm h h' hp
  · intro idx idx' rows r h h' hr
    exact aggregate_append_mem h h' hr
  · intro idx idx' rows rows' h h' hp
    exact aggregate_perm h h' hp
  · intro idx idx' rows r h h' hr
    exact aggregate_append_mem h h' hr
  · intro idx idx' rows rows' h h' hp
    rw [sp_dget_some h, sp_dget_some h']
    exact spRows_perm hp
  · intro idx idx' rows r h h' hr
    rw [sp_dget_some h, sp_dget_some h']
    exact spRows_append_mem hr

/-- Witness for claim C4: swapping two concrete height records leaves the
rendered output unchanged. -/
theorem claim_C4_witness :
    parse_height [("Height of Buildings Map",
        [[("title", "12"), ("Units", "m")], [("title", "9"), ("Units", "m")]])] =
      parse_height [("Height of Buildings Map",
        [[("title", "9"), ("Units", "m")], [("title", "12"), ("Units", "m")]])] :=
  claim_C4.1
    [("Height of Buildings Map",
        [[("title", "12"), ("Units", "m")], [("title", "9"), ("Units", "m")]])]
    [("Height of Buildings Map",
        [[("title", "9"), ("Units", "m")], [("title", "12"), ("Units", "m")]])]
    [[("title", "12"), ("Units", "m")], [("title", "9"), ("Units", "m")]]
    [[("title", "9"), ("Units", "m")], [("title", "12"), ("Units", "m")]]
    rfl rfl
    (List.Perm.swap [("title", "9"), ("Units", "m")] [("title", "12"), ("Units", "m")] [])

theorem heightLabel_eq_none {r : Record}
    (h1 : rget r "Maximum Building Height" = none) (h2 : rget r "title" = none)
    (h3 : rget r "Legislative Clause" = none) (h4 : rget r "EPI Name" = none) :
    heightLabel r = none := by
  simp [heightLabel, pyOr, truthy, joinTruthy, joinSep, h1, h2, h3, h4]
  decide

theorem soilLabel_eq_none {r : Record}
    (h1 : rget r "Class" = none) (h2 : rget r "title" = none)
    (h3 : rget r "Legislative Clause" = none) (h4 : rget r "EPI Name" = none) :
    soilLabel r = none := by
  simp [soilLabel, pyOr, truthy, joinTruthy, joinSep, h1, h2, h3, h4]
  decide

theorem gwLabel_eq_none {r : Record}
    (h1 : rget r "Class" = none) (h2 : rget r "title" = none)
    (h3 : rget r "EPI Name" = none) (h4 : rget r "Commenced Date" = none) :
    gwLabel r = none := by
  simp [gwLabel, pyOr, truthy, joinTruthy, joinSep, h1, h2, h3, h4]
  decide

theorem bioLabel_eq_none {r : Record}
    (h1 : rget r "Class" = none) (h2 : rget r "title" = none)
    (h3 : rget r "EPI Name" = none) (h4 : rget r "Commenced Date" = none) :
    bioLabel r = none := by
  simp [bioLabel, pyOr, truthy, joinTruthy, joinSep, h1, h2, h3, h4]
  decide

/-- Claim C2 counterexample: a height record whose primary field and title
fallback are both absent still contributes a label when a secondary
metadata field (Legislative Clause) is present — the extractor returns the
metadata-only label instead of treating the record as empty. -/
theorem claim_C2_counterexample :
    parse_height [("Height of Buildings Map", [[("Legislative Clause", "4.3")]])] =
      some "Height of Buildings: (4.3)" ∧
    parse_height [("Height of Buildings Map", [[("Legislative Clause", "4.3")]])] ≠
      none := by
  constructor
  · rfl
  · decide

/-- Claim C2 (amended): for every composite-label extractor, a record whose
primary field, generic title fallback, and secondary metadata fields are
all absent contributes nothing to the aggregated output. -/
theorem claim_C2_amended :
    (∀ (idx idx' : OverlayIdx) (rows : List Record) (r : Record),
      rget r "Maximum Building Height" = none → rget r "title" = none →
      rget r "Legislative Clause" = none → rget r "EPI Name" = none →
      dget idx "Height of Buildings Map" = some rows →
      dget idx' "Height of Buildings Map" = some (rows ++ [r]) →
      parse_height idx' = parse_height idx) ∧
    (∀ (idx idx' : OverlayIdx) (rows : List Record) (r : Record),
      rget r "Class" = none → rget r "title" = none →
      rget r "Legislative Clause" = none → rget r "EPI Name" = none →
      dget idx "Acid Sulfate Soils Map" = some rows →
      dget idx' "Acid Sulfate Soils Map" = some (rows ++ [r]) →
      parse_acid_sulfate_soil idx' = parse_acid_sulfate_soil idx) ∧
    (∀ (idx idx' : OverlayIdx) (rows : List Record) (r : Record),
      rget r "Class" = none → rget r "title" = none →
      rget r "EPI Name" = none → rget r "Commenced Date" = none →
      dget idx "Natural Resource - Groundwater Vulnerability Map" = some rows →
      dget idx' "Natural Resource - Groundwater Vulnerability Map" =
        some (rows ++ [r]) →
      parse_groundwater_vulnerability idx' = parse_groundwater_vulnerability idx) ∧
    (∀ (idx idx' : OverlayIdx) (rows : List Record) (r : Record),
      rget r "Class" = none → rget r "title" = none →
      rget r "EPI Name" = none → rget r "Commenced Date" = none →
      dget idx "Terrestrial Biodiversity Map" = some rows →
      dget idx' "Terrestrial Biodiversity Map" = some (rows ++ [r]) →
      parse_terrestrial_biodiversity idx' = parse_terrestrial_biodiversity idx) := by
  refine ⟨?_, ?_, ?_, ?_⟩
  · intro idx idx' rows r h1 h2 h3 h4 h h'
    exact aggregate_append_none h h' (heightLabel_eq_none h1 h2 h3 h4)
  · intro idx idx' rows r h1 h2 h3 h4 h h'
    exact aggregate_append_none h h' (soilLabel_eq_none h1 h2 h3 h4)
  · intro idx idx' rows r h1 h2 h3 h4 h h'
    exact aggregate_append_none h h' (gwLabel_eq_none h1 h2 h3 h4)
  · intro idx idx' rows r h1 h2 h3 h4 h h'
    exact aggregate_append_none h h' (bioLabel_eq_none h1 h2 h3 h4)

/-- Witness for the amended claim C2: appending a record carrying only a
Units field changes nothing. -/
theorem claim_C2_amended_witness :
    parse_height [("Height of Buildings Map", [[("title", "9")], [("Units", "m")]])] =
      parse_height [("Height of Buildings Map", [[("title", "9")]])] :=
  claim_C2_amended.1
    [("Height of Buildings Map", [[("title", "9")]])]
    [("Height of Buildings Map", [[("title", "9")], [("Units", "m")]])]
    [[("title", "9")]] [("Units", "m")]
    rfl rfl rfl rfl rfl rfl

/-- Claim C3 counterexample: the assembled Special Provisions cell joins
the extractor outputs with "/ ", which is neither the "; " delimiter the
composite-label extractors use between labels nor the " / " delimiter the
special-provisions extractor uses. -/
theorem claim_C3_counterexample :
    specialProvisionsField
        [("Height of Buildings Map", [[("title", "9")]]),
         ("Acid Sulfate Soils Map", [[("title", "Class 1")]])] =
      "Acid Sulfate Soils: Class 1/ Height of Buildings: 9 m" ∧
    specialProvisionsField
        [("Height of Buildings Map", [[("title", "9")]]),
         ("Acid Sulfate Soils Map", [[("title", "Class 1")]])] ≠
      joinSep "; " ["Acid Sulfate Soils: Class 1", "Height of Buildings: 9 m"] ∧
    specialProvisionsField
        [("Height of Buildings Map", [[("title", "9")]]),
         ("Acid Sulfate Soils Map", [[("title", "Class 1")]])] ≠
      joinSep " / " ["Acid Sulfate Soils: Class 1", "Height of Buildings: 9 m"] := by
  refine ⟨by decide, by decide, by decide⟩

/-- Claim C3 (amended): the Special Provisions cell is the ascending
lexicographic sort of the truthy outputs of the five extractors joined with
the fixed delimiter "/ " — a delimiter distinct from the ones the
per-topic extractors use between their own labels. -/
theorem claim_C3_amended (idx : OverlayIdx) :
    ∃ L : List String, L.Sorted (fun a b => a ≤ b) ∧
      L.Perm (pyFilterTruthy
        [parse_special_provisions idx, parse_height idx,
         parse_acid_sulfate_soil idx, parse_groundwater_vulnerability idx,
         parse_terrestrial_biodiversity idx]) ∧
      specialProvisionsField idx = joinSep "/ " L := by
  refine ⟨List.insertionSort pyLeP (pyFilterTruthy
    [parse_special_provisions idx, parse_height idx,
     parse_acid_sulfate_soil idx, parse_groundwater_vulnerability idx,
     parse_terrestrial_biodiversity idx]), ?_, List.perm_insertionSort _ _, rfl⟩
  exact List.Pairwise.imp (fun hab => (pyLe_iff_le _ _).mp hab)
    (List.sorted_insertionSort pyLeP _)

/-- Claim C8: when any upstream lookup in the build chain fails, the
submission reports the error to the caller and the site table is exactly as
it was — no partial row is inserted and no existing row is modified. -/
theorem claim_C8 (api : Api) (table : List SiteRow) (lotid : String) (e : String)
    (hblank : (pyStrip lotid).isEmpty = false)
    (h : build_site_dataframe api lotid = .error e) :
    submit api table lotid = (table, SubmitOutcome.failed e) := by
  simp [submit, hblank, h]

/-- Witness for claim C8 at an all-failing upstream API. -/
theorem claim_C8_witness :
    submit
      ⟨fun _ => .error "not found", fun _ => .error "x", fun _ => .error "x",
       fun _ => .error "x", fun _ => .error "x", fun _ => .error "x"⟩
      [] "1/G/DP100" = ([], SubmitOutcome.failed "not found") :=
  claim_C8
    ⟨fun _ => .error "not found", fun _ => .error "x", fun _ => .error "x",
     fun _ => .error "x", fun _ => .error "x", fun _ => .error "x"⟩
    [] "1/G/DP100" "not found" rfl rfl

/-- Claim C9: the site table is unique by lot identifier with first-wins
resolution — submitting an identifier already present leaves the table
unchanged, and a successful rebuild only yields a duplicate notice. -/
theorem claim_C9 (api : Api) (table : List SiteRow) (lotid : String)
    (hmem : ∃ row ∈ table, row.lotIdentifier = lotid) :
    (submit api table lotid).1 = table ∧
    (∀ row, build_site_dataframe api lotid = .ok row →
      (pyStrip lotid).isEmpty = false →
      submit api table lotid = (table, SubmitOutcome.duplicate)) := by
  have hany : table.any (fun r => r.lotIdentifier == lotid) = true := by
    obtain ⟨row, hr, he⟩ := hmem
    exact List.any_eq_true.mpr ⟨row, hr, beq_iff_eq.mpr he⟩
  constructor
  · unfold submit
    cases hb : (pyStrip lotid).isEmpty with
    | true => simp [hb]
    | false =>
      cases hbuild : build_site_dataframe api lotid with
      | error e => simp [hbuild]
      | ok row => simp [hbuild, hany]
  · intro row hrow hblank
    simp [submit, hblank, hrow, hany]

/-- Witness for claim C9: resubmitting a lot identifier already in the
table leaves the table unchanged. -/
theorem claim_C9_witness :
    (submit
      ⟨fun _ => .error "not found", fun _ => .error "x", fun _ => .error "x",
       fun _ => .error "x", fun _ => .error "x", fun _ => .error "x"⟩
      [⟨"1 Main St", "", "1/G/DP100", "Shire", none, none, none, none, "", "N", "N"⟩]
      "1/G/DP100").1 =
    [⟨"1 Main St", "", "1/G/DP100", "Shire", none, none, none, none, "", "N", "N"⟩] :=
  (claim_C9
    ⟨fun _ => .error "not found", fun _ => .error "x", fun _ => .error "x",
     fun _ => .error "x", fun _ => .error "x", fun _ => .error "x"⟩
    [⟨"1 Main St", "", "1/G/DP100", "Shire", none, none, none, none, "", "N", "N"⟩]
    "1/G/DP100"
    ⟨⟨"1 Main St", "", "1/G/DP100", "Shire", none, none, none, none, "", "N", "N"⟩,
     List.mem_cons_self _ _, rfl⟩).1

end ParcelNSW
